import Mathlib

/-!
Verification of the WebSocket connection registry and message-dispatch
subsystem of the nadmon backend (package `websocket` in `main.go`, plus the
connection handler in `handlers`).

Shallow embedding notes.
* Go channels of `Message` are modelled as a FIFO `List Message` together with
  a capacity and a `queueClosed` flag.  A non-blocking `select … default` send
  succeeds when the queue is open and holds fewer than `cap` elements; sending
  on (or closing) an already-closed channel is a Go runtime panic, modelled by
  the `panicked` flag of the manager state.  Once `panicked` is set the
  process is dead, so every subsequent operation leaves the state unchanged.
* `*Client` pointers are modelled as `Nat` keys into a heap
  (`sessions : List (Nat × SessionData)`); the registry `m.clients`
  (`map[string]*Client`) is an association list from address to pointer key.
* `time.Now()` is modelled by an explicit `now : Nat` argument at each call
  that constructs a `Message`.
-/

namespace NadmonWS

/-! ### Association-list primitives (Go maps and the pointer heap) -/

/-- First-match lookup in an association list (Go map indexing). -/
def mlookup {α β : Type} [DecidableEq α] (k : α) : List (α × β) → Option β
  | [] => none
  | p :: rest => if p.1 = k then some p.2 else mlookup k rest

/-- Replace the value stored under a key, leaving other entries alone
(mutation of the pointee of a Go pointer). -/
def mupdate {α β : Type} [DecidableEq α] (k : α) (v : β) :
    List (α × β) → List (α × β)
  | [] => []
  | p :: rest =>
      if p.1 = k then (k, v) :: mupdate k v rest else p :: mupdate k v rest

/-- Remove every entry stored under a key (Go `delete(m, k)`; a real Go map
holds at most one entry per key). -/
def merase {α β : Type} [DecidableEq α] (k : α) : List (α × β) → List (α × β)
  | [] => []
  | p :: rest => if p.1 = k then merase k rest else p :: merase k rest

/-- Map assignment `m[k] = v`: any previous binding of `k` is replaced. -/
def minsert {α β : Type} [DecidableEq α] (k : α) (v : β)
    (l : List (α × β)) : List (α × β) :=
  merase k l ++ [(k, v)]

/-! ### Data model (`main.go` lines 189-212) -/

/-- The `Data interface{}` field of a `Message`: either one of the two
payload shapes built by the subsystem itself, or an opaque application
payload handed to `NotifyUser` / `BroadcastToAll`. -/
inductive MsgData where
  | connectedData (address : String) (status : String)
  | pongData (status : String)
  | appData (tag : Nat)
deriving DecidableEq, Repr

/-- `Message{Type, Data, Timestamp}`; the timestamp is the `now` value at
construction. -/
structure Message where
  mtype : String
  mdata : MsgData
  timestamp : Nat
deriving DecidableEq, Repr

/-- The contents of one `Client` value: identifier, address, the `Send`
channel (queue, capacity, closed flag) and the `Conn` transport (closed
flag).  The back pointer `Manager` of the Go struct is the ambient state and
is not repeated here. -/
structure SessionData where
  id : String
  address : String
  queue : List Message
  cap : Nat
  queueClosed : Bool
  connClosed : Bool
deriving DecidableEq, Repr

/-- The `Manager` state: the registry `clients : map[address]*Client`, the
heap of client structs, and the process-wide panic flag. -/
structure ManagerState where
  clients : List (String × Nat)
  sessions : List (Nat × SessionData)
  panicked : Bool
deriving DecidableEq, Repr

/-- Result shape of `GetStats` (the two keys of the returned map). -/
structure Stats where
  connected_clients : Nat
  connected_users : List String
deriving DecidableEq, Repr

/-- The welcome `Message` built inside `registerClient`. -/
def welcomeMessage (address : String) (now : Nat) : Message :=
  { mtype := "connected"
    mdata := MsgData.connectedData address "connected"
    timestamp := now }

/-! ### Dispatcher operations (`main.go` lines 246-343) -/

/-- `registerClient` (lines 264-290): evict any existing client for the same
address (close its `Send` channel and its `Conn`), install the new client in
the registry, then attempt a non-blocking send of the welcome message,
deleting the new client again if its queue cannot accept it. -/
def registerClient (st : ManagerState) (cid : Nat) (now : Nat) : ManagerState :=
  if st.panicked then st else
  match mlookup cid st.sessions with
  | none => st
  | some c =>
    let st1 : ManagerState :=
      match mlookup c.address st.clients with
      | some oldId =>
        match mlookup oldId st.sessions with
        | some oldC =>
          if oldC.queueClosed then { st with panicked := true }
          else
            let oldC2 := { oldC with queueClosed := true, connClosed := true }
            { st with sessions := mupdate oldId oldC2 st.sessions }
        | none => st
      | none => st
    if st1.panicked then st1 else
    let st2 : ManagerState :=
      { st1 with clients := minsert c.address cid st1.clients }
    match mlookup cid st2.sessions with
    | none => st2
    | some c2 =>
      if c2.queueClosed then { st2 with panicked := true }
      else if c2.queue.length < c2.cap then
        let c3 := { c2 with queue := c2.queue ++ [welcomeMessage c.address now] }
        { st2 with sessions := mupdate cid c3 st2.sessions }
      else
        let c3 := { c2 with queueClosed := true }
        { st2 with
            sessions := mupdate cid c3 st2.sessions
            clients := merase c.address st2.clients }

/-- `unregisterClient` (lines 293-303): if any entry exists for the address
of the client being removed, delete that map entry, close the client queue
(panicking if it is already closed) and close its transport. -/
def unregisterClient (st : ManagerState) (cid : Nat) : ManagerState :=
  if st.panicked then st else
  match mlookup cid st.sessions with
  | none => st
  | some c =>
    match mlookup c.address st.clients with
    | none => st
    | some _ =>
      let st1 : ManagerState := { st with clients := merase c.address st.clients }
      if c.queueClosed then { st1 with panicked := true }
      else
        let c2 := { c with queueClosed := true, connClosed := true }
        { st1 with sessions := mupdate cid c2 st1.sessions }

/-- One iteration of the `broadcastMessage` loop body for the registry entry
`e`: non-blocking send to the client queue; on saturation close the queue and
delete the registry entry (the transport is not touched here). -/
def bcStep (msg : Message) (s : ManagerState) (e : String × Nat) : ManagerState :=
  if s.panicked then s else
  match mlookup e.2 s.sessions with
  | none => s
  | some c =>
    if c.queueClosed then { s with panicked := true }
    else if c.queue.length < c.cap then
      let c2 := { c with queue := c.queue ++ [msg] }
      { s with sessions := mupdate e.2 c2 s.sessions }
    else
      let c2 := { c with queueClosed := true }
      { s with
          sessions := mupdate e.2 c2 s.sessions
          clients := merase e.1 s.clients }

/-- `broadcastMessage` (lines 306-318): iterate over the registry entries,
attempting a non-blocking enqueue on each; saturated clients are closed and
deleted in place.  Deleting only the entry being visited, iterating over the
initial snapshot of entries is faithful to the Go range loop. -/
def broadcastMessage (st : ManagerState) (msg : Message) : ManagerState :=
  if st.panicked then st else
  st.clients.foldl (bcStep msg) st

/-- `NotifyUser` (lines 321-343): look up the addressed client; absent means
return with no effect; present means a non-blocking enqueue, and a saturated
queue routes the client through the unregister path. -/
def NotifyUser (st : ManagerState) (address : String) (messageType : String)
    (data : MsgData) (now : Nat) : ManagerState :=
  if st.panicked then st else
  match mlookup address st.clients with
  | none => st
  | some cid =>
    let message : Message :=
      { mtype := messageType, mdata := data, timestamp := now }
    match mlookup cid st.sessions with
    | none => st
    | some c =>
      if c.queueClosed then { st with panicked := true }
      else if c.queue.length < c.cap then
        let c2 := { c with queue := c.queue ++ [message] }
        { st with sessions := mupdate cid c2 st.sessions }
      else
        unregisterClient st cid

/-- `BroadcastToAll` (lines 346-354): build the message and hand it to the
dispatcher, which runs `broadcastMessage`. -/
def BroadcastToAll (st : ManagerState) (messageType : String) (data : MsgData)
    (now : Nat) : ManagerState :=
  broadcastMessage st { mtype := messageType, mdata := data, timestamp := now }

/-- `GetConnectedUsers` (lines 357-366): the list of registered addresses. -/
def GetConnectedUsers (st : ManagerState) : List String :=
  st.clients.map Prod.fst

/-- `GetStats` (lines 369-377). -/
def GetStats (st : ManagerState) : Stats :=
  { connected_clients := st.clients.length
    connected_users := GetConnectedUsers st }

/-- The dispatcher command alphabet of `Start` (lines 246-261). -/
inductive DispatcherCommand where
  | register (cid : Nat) (now : Nat)
  | unregister (cid : Nat)
  | broadcast (msg : Message)
deriving DecidableEq, Repr

/-- One step of the `Start` select loop. -/
def dispatchOne (st : ManagerState) : DispatcherCommand → ManagerState
  | DispatcherCommand.register cid now => registerClient st cid now
  | DispatcherCommand.unregister cid => unregisterClient st cid
  | DispatcherCommand.broadcast msg => broadcastMessage st msg

/-- `Start` (lines 246-261): the single goroutine that applies every
registry mutation, one command at a time, in arrival order. -/
def Start (st : ManagerState) (cmds : List DispatcherCommand) : ManagerState :=
  cmds.foldl dispatchOne st

/-! ### Connection handshake (`UpgradeConnection`, `HandleConnection`) -/

/-- `generateClientID` (lines 502-504): a timestamp-derived identifier. -/
def generateClientID (now : Nat) : String :=
  toString now ++ "-" ++ "client"

/-- `UpgradeConnection` (lines 380-401), after a successful upgrade: build a
fresh client with an empty `Send` channel of capacity 256 and submit it to
the dispatcher for registration.  A failed upgrade performs nothing and is
not modelled. -/
def UpgradeConnection (st : ManagerState) (cid : Nat) (address : String)
    (now : Nat) : ManagerState :=
  let client : SessionData :=
    { id := generateClientID now
      address := address
      queue := []
      cap := 256
      queueClosed := false
      connClosed := false }
  registerClient { st with sessions := minsert cid client st.sessions } cid now

/-- `isValidEthereumAddress` (handlers): length 42 and leading `0x`.  Go
`len` counts bytes and the leading-`0x` test compares the first two bytes;
the addresses concerned are ASCII, where bytes and characters agree. -/
def isValidEthereumAddress (address : String) : Bool :=
  address.length == 42 && address.data.take 2 == ['0', 'x']

/-- ASCII uppercase test on a character (the only case mapping relevant to
hexadecimal addresses). -/
def isUpperAscii (ch : Char) : Bool :=
  decide (65 ≤ ch.toNat) && decide (ch.toNat ≤ 90)

/-- ASCII lowering of one character, as `strings.ToLower` acts on ASCII
input: add 32 to a code point in `[65, 90]`, leave everything else alone. -/
def lowerChar (ch : Char) : Char :=
  if 65 ≤ ch.toNat ∧ ch.toNat ≤ 90 then Char.ofNat (ch.toNat + 32) else ch

/-- `strings.ToLower`, restricted to the ASCII fragment exercised by
Ethereum addresses. -/
def stringsToLower (s : String) : String :=
  String.mk (s.data.map lowerChar)

/-- Whether a string contains an ASCII uppercase letter. -/
def hasUpperAscii (s : String) : Bool :=
  s.data.any isUpperAscii

/-- `HandleConnection` (handlers): validate the supplied address, lowercase
it, then upgrade and register. -/
def HandleConnection (st : ManagerState) (cid : Nat) (address : String)
    (now : Nat) : ManagerState :=
  if isValidEthereumAddress address then
    UpgradeConnection st cid (stringsToLower address) now
  else st

/-! ### Read-pump deadline automaton (`readPump`, lines 404-437) -/

/-- The read-deadline window, in seconds. -/
def readDeadlineSeconds : Nat := 60

/-- An observable event of the read pump: a successfully received data frame
or a liveness-probe acknowledgment (pong control frame), each carrying its
arrival time in seconds. -/
inductive ReadEvent where
  | frame (t : Nat)
  | pong (t : Nat)
deriving DecidableEq, Repr

/-- The deadline transition of `readPump` as implemented: the pong handler
resets the deadline to a full new window; reading a data frame leaves the
deadline untouched.  `none` is a deadline overrun, i.e. a read error, which
makes the pump exit into its deferred teardown (unregister and close). -/
def readPumpStep (deadline : Nat) : ReadEvent → Option Nat
  | ReadEvent.frame t => if t ≤ deadline then some deadline else none
  | ReadEvent.pong t => if t ≤ deadline then some (t + readDeadlineSeconds) else none

/-- The deadline installed when the pump starts at time `t0`. -/
def initialReadDeadline (t0 : Nat) : Nat :=
  t0 + readDeadlineSeconds

/-- Run the read pump over a sequence of events; `none` once any event
overruns the current deadline. -/
def readPumpDeadlineAfter (t0 : Nat) (events : List ReadEvent) : Option Nat :=
  events.foldl (fun od e => od.bind (fun d => readPumpStep d e))
    (some (initialReadDeadline t0))

/-! ### Lock discipline of the registry accessors

Each accessor of `m.clients` takes `m.mu` in one of the two modes of a
reader-writer mutex and then reads or also mutates the map; the records
below transcribe, per function, which mode is taken and whether the function
mutates `m.clients`.  Two critical sections can overlap exactly when both
hold the read mode. -/

/-- Reader-writer mutex acquisition mode. -/
inductive LockMode where
  | rlock
  | wlock
deriving DecidableEq, Repr

/-- What one function does with `m.mu` and `m.clients`. -/
structure RegistryAccessSpec where
  lock : LockMode
  mutatesClients : Bool
  readsClients : Bool
deriving DecidableEq, Repr

/-- `registerClient`: `m.mu.Lock()`; writes `m.clients`. -/
def registerAccess : RegistryAccessSpec :=
  { lock := LockMode.wlock, mutatesClients := true, readsClients := true }

/-- `unregisterClient`: `m.mu.Lock()`; writes `m.clients`. -/
def unregisterAccess : RegistryAccessSpec :=
  { lock := LockMode.wlock, mutatesClients := true, readsClients := true }

/-- `broadcastMessage`: `m.mu.RLock()`, yet it deletes saturated entries
from `m.clients` inside the loop. -/
def broadcastAccess : RegistryAccessSpec :=
  { lock := LockMode.rlock, mutatesClients := true, readsClients := true }

/-- `NotifyUser`: `m.mu.RLock()`; map read only. -/
def notifyUserAccess : RegistryAccessSpec :=
  { lock := LockMode.rlock, mutatesClients := false, readsClients := true }

/-- `GetConnectedUsers`: `m.mu.RLock()`; map read only. -/
def getConnectedUsersAccess : RegistryAccessSpec :=
  { lock := LockMode.rlock, mutatesClients := false, readsClients := true }

/-- `GetStats`: `m.mu.RLock()`; map read only. -/
def getStatsAccess : RegistryAccessSpec :=
  { lock := LockMode.rlock, mutatesClients := false, readsClients := true }

/-- Two critical sections of one reader-writer mutex can run at the same
time exactly when both take the read mode. -/
def mayOverlap (a b : RegistryAccessSpec) : Bool :=
  decide (a.lock = LockMode.rlock) && decide (b.lock = LockMode.rlock)

/-- A data race on `m.clients`: the two sections can overlap while the first
mutates the map and the second accesses it. -/
def racesWith (a b : RegistryAccessSpec) : Bool :=
  mayOverlap a b && a.mutatesClients && b.readsClients

/-! ### Derived state predicates used in theorem hypotheses -/

/-- The registry entry `i` points to a client whose queue is still open. -/
def liveAt (st : ManagerState) (i : Nat) : Bool :=
  match mlookup i st.sessions with
  | some c => !c.queueClosed
  | none => false

/-- The client under key `i` has room in its outbound queue. -/
def queueHasRoom (st : ManagerState) (i : Nat) : Bool :=
  match mlookup i st.sessions with
  | some c => decide (c.queue.length < c.cap)
  | none => false

/-- Whether the broadcast loop evicts the entry `p`, judged against the
session heap of `s` (the client queue is at capacity). -/
def bcEvicts (s : ManagerState) (p : String × Nat) : Bool :=
  match mlookup p.2 s.sessions with
  | some c => decide (c.cap ≤ c.queue.length)
  | none => false

/-! ### Concrete states used by witnesses and counterexamples -/

/-- A freshly-connected client for address `0xa`, as `UpgradeConnection`
builds one. -/
def baseSession : SessionData :=
  { id := "c1", address := "0xa", queue := [], cap := 256,
    queueClosed := false, connClosed := false }

/-- Two fresh clients for the same address sitting in the heap, none
registered yet. -/
def twoClientState : ManagerState :=
  { clients := [], sessions := [(1, baseSession), (2, { baseSession with id := "c2" })],
    panicked := false }

/-- The stale-unregister schedule: client 1 registers, client 2 registers
for the same address (evicting client 1), then the teardown of client 1
reaches the dispatcher. -/
def staleUnregisterRun : ManagerState :=
  Start twoClientState
    [DispatcherCommand.register 1 10, DispatcherCommand.register 2 20,
     DispatcherCommand.unregister 1]

/-- An opaque application message. -/
def sampleMessage (n : Nat) : Message :=
  { mtype := "PRICE_UPDATE", mdata := MsgData.appData n, timestamp := n }

/-- A client for `0xa` whose queue (capacity 1) is already full. -/
def satSessionOne : SessionData :=
  { baseSession with queue := [sampleMessage 0], cap := 1 }

/-- One registered client whose queue is already full. -/
def saturatedOneState : ManagerState :=
  { clients := [("0xa", 1)],
    sessions := [(1, satSessionOne)],
    panicked := false }

/-- A client for `0xb` with one queued message and room for another. -/
def roomSessionB : SessionData :=
  { baseSession with id := "c2", address := "0xb",
                     queue := [sampleMessage 0], cap := 2 }

/-- A client for `0xc` whose queue (capacity 2) is full. -/
def satSessionC : SessionData :=
  { baseSession with id := "c3", address := "0xc",
                     queue := [sampleMessage 0, sampleMessage 1], cap := 2 }

/-- Three registered clients; `0xc` has a full queue, the other two have
room. -/
def broadcastThreeState : ManagerState :=
  { clients := [("0xa", 1), ("0xb", 2), ("0xc", 3)],
    sessions := [(1, baseSession), (2, roomSessionB), (3, satSessionC)],
    panicked := false }

/-- A single registered, live, non-saturated client. -/
def oneClientState : ManagerState :=
  { clients := [("0xa", 1)], sessions := [(1, baseSession)], panicked := false }

/-- A state to re-register over: client 1 holds `0xa`, client 2 is a fresh
client for the same address waiting in the heap. -/
def reconnectState : ManagerState :=
  { clients := [("0xa", 1)],
    sessions := [(1, baseSession), (2, { baseSession with id := "c2" })],
    panicked := false }

/-- A valid mixed-case Ethereum address (42 characters, leading `0x`). -/
def mixedCaseAddress : String :=
  "0xAbcccccccccccccccccccccccccccccccccccccc"

/-! ### Lemmas on the association-list primitives -/

theorem mlookup_mupdate_self {α β : Type} [DecidableEq α] (k : α) (v : β)
    (l : List (α × β)) :
    mlookup k (mupdate k v l) = (mlookup k l).map (fun _ => v) := by
  induction l with
  | nil => rfl
  | cons p rest ih =>
    by_cases h : p.1 = k
    · simp [mupdate, mlookup, h]
    · simp [mupdate, mlookup, h, ih]

theorem mlookup_mupdate_ne {α β : Type} [DecidableEq α] {k j : α} (v : β)
    (l : List (α × β)) (h : j ≠ k) :
    mlookup j (mupdate k v l) = mlookup j l := by
  have h2 : ¬ k = j := fun e => h e.symm
  induction l with
  | nil => rfl
  | cons p rest ih =>
    by_cases hp : p.1 = k
    · have hpj : ¬ p.1 = j := by rw [hp]; exact h2
      simp [mupdate, mlookup, hp, h2, hpj, ih]
    · simp [mupdate, mlookup, hp, ih]

theorem mlookup_merase_self {α β : Type} [DecidableEq α] (k : α)
    (l : List (α × β)) :
    mlookup k (merase k l) = none := by
  induction l with
  | nil => rfl
  | cons p rest ih =>
    by_cases h : p.1 = k
    · simp [merase, h, ih]
    · simp [merase, mlookup, h, ih]

theorem mlookup_merase_ne {α β : Type} [DecidableEq α] {k j : α}
    (l : List (α × β)) (h : j ≠ k) :
    mlookup j (merase k l) = mlookup j l := by
  have h2 : ¬ k = j := fun e => h e.symm
  induction l with
  | nil => rfl
  | cons p rest ih =>
    by_cases hp : p.1 = k
    · have hpj : ¬ p.1 = j := by rw [hp]; exact h2
      simp [merase, mlookup, hp, h2, hpj, ih]
    · simp [merase, mlookup, hp, ih]

theorem mlookup_minsert_self {α β : Type} [DecidableEq α] (k : α) (v : β)
    (l : List (α × β)) :
    mlookup k (minsert k v l) = some v := by
  unfold minsert
  induction l with
  | nil => simp [mlookup]
  | cons p rest ih =>
    by_cases h : p.1 = k
    · simpa [merase, h] using ih
    · simpa [merase, mlookup, h] using ih

theorem mlookup_minsert_ne {α β : Type} [DecidableEq α] {k j : α} (v : β)
    (l : List (α × β)) (h : j ≠ k) :
    mlookup j (minsert k v l) = mlookup j l := by
  have h2 : ¬ k = j := fun e => h e.symm
  unfold minsert
  induction l with
  | nil => simp [mlookup, h2]
  | cons p rest ih =>
    by_cases hp : p.1 = k
    · have hpj : ¬ p.1 = j := by rw [hp]; exact h2
      simp [merase, mlookup, hp, h2, hpj, ih]
    · simp [merase, mlookup, hp, ih]

theorem mlookup_eq_none_iff {α β : Type} [DecidableEq α] (k : α)
    (l : List (α × β)) :
    mlookup k l = none ↔ k ∉ l.map Prod.fst := by
  induction l with
  | nil => simp [mlookup]
  | cons p rest ih =>
    by_cases h : p.1 = k
    · simp [mlookup, h]
    · have h2 : ¬ k = p.1 := fun e => h e.symm
      simp [mlookup, h, h2, ih]

theorem mlookup_some_mem {α β : Type} [DecidableEq α] {k : α} {v : β}
    {l : List (α × β)} (h : mlookup k l = some v) : (k, v) ∈ l := by
  induction l with
  | nil => simp [mlookup] at h
  | cons p rest ih =>
    obtain ⟨pa, pb⟩ := p
    by_cases hp : pa = k
    · simp [mlookup, hp] at h
      subst hp
      subst h
      simp
    · simp [mlookup, hp] at h
      exact List.mem_cons_of_mem _ (ih h)

theorem not_mem_keys_merase {α β : Type} [DecidableEq α] (k : α)
    (l : List (α × β)) :
    k ∉ (merase k l).map Prod.fst := by
  induction l with
  | nil => simp [merase]
  | cons p rest ih =>
    by_cases h : p.1 = k
    · simpa [merase, h] using ih
    · have h2 : ¬ k = p.1 := fun e => h e.symm
      simp [merase, h, h2, ih]

theorem merase_sublist {α β : Type} [DecidableEq α] (k : α)
    (l : List (α × β)) :
    (merase k l).Sublist l := by
  induction l with
  | nil => simp [merase]
  | cons p rest ih =>
    by_cases h : p.1 = k
    · simp only [merase, h, if_pos]
      exact List.Sublist.cons _ ih
    · simp only [merase, h, if_neg, not_false_iff]
      exact List.Sublist.cons₂ _ ih

theorem mem_keys_merase {α β : Type} [DecidableEq α] {k j : α}
    {l : List (α × β)} (h : j ∈ (merase k l).map Prod.fst) :
    j ∈ l.map Prod.fst :=
  ((merase_sublist k l).map Prod.fst).subset h

theorem keys_mupdate {α β : Type} [DecidableEq α] (k : α) (v : β)
    (l : List (α × β)) :
    (mupdate k v l).map Prod.fst = l.map Prod.fst := by
  induction l with
  | nil => rfl
  | cons p rest ih =>
    by_cases h : p.1 = k <;> simp [mupdate, h, ih]

theorem count_keys_minsert {α β : Type} [DecidableEq α] (k : α) (v : β)
    (l : List (α × β)) :
    ((minsert k v l).map Prod.fst).count k = 1 := by
  unfold minsert
  rw [List.map_append, List.count_append]
  have h0 : ((merase k l).map Prod.fst).count k = 0 :=
    List.count_eq_zero.mpr (not_mem_keys_merase k l)
  simp [h0]

/-! ### Claim C7: idempotent unregister -/

/-- Claim C7: for every session S, processing Unregister(S) twice in
succession has the same effect on the Registry and on S as processing it
once; the second Unregister is a no-op with no panic and no double-close. -/
theorem unregister_idempotent (st : ManagerState) (cid : Nat) :
    unregisterClient (unregisterClient st cid) cid = unregisterClient st cid := by
  by_cases hp : st.panicked
  · have h1 : unregisterClient st cid = st := by simp [unregisterClient, hp]
    rw [h1, h1]
  · cases hc : mlookup cid st.sessions with
    | none =>
      have h1 : unregisterClient st cid = st := by simp [unregisterClient, hp, hc]
      rw [h1, h1]
    | some c =>
      cases ha : mlookup c.address st.clients with
      | none =>
        have h1 : unregisterClient st cid = st := by
          simp [unregisterClient, hp, hc, ha]
        rw [h1, h1]
      | some oldId =>
        by_cases hq : c.queueClosed
        · have h1 : unregisterClient st cid =
              { st with clients := merase c.address st.clients,
                        panicked := true } := by
            simp [unregisterClient, hp, hc, ha, hq]
          rw [h1]
          simp [unregisterClient]
        · have h1 : unregisterClient st cid =
              { st with clients := merase c.address st.clients,
                        sessions := mupdate cid
                          { c with queueClosed := true, connClosed := true }
                          st.sessions } := by
            simp [unregisterClient, hp, hc, ha, hq]
          rw [h1]
          simp [unregisterClient, hp, mlookup_mupdate_self, hc,
            mlookup_merase_self]

/-! ### Claim C8: unicast to an absent address is a no-op -/

/-- Claim C8: NotifyUser on an address with no live session returns without
error and produces no observable side effect: the Registry is unchanged and
no queue receives a message. -/
theorem notify_absent_noop (st : ManagerState) (a t : String) (d : MsgData)
    (now : Nat) (h : mlookup a st.clients = none) :
    NotifyUser st a t d now = st := by
  simp [NotifyUser, h]

/-- Witness for C8 on a concrete state with one client and a different
target address. -/
theorem notify_absent_noop_witness :
    mlookup "0xb" oneClientState.clients = none ∧
    NotifyUser oneClientState "0xb" "PRICE_UPDATE" (MsgData.appData 7) 3 =
      oneClientState :=
  ⟨by decide,
   notify_absent_noop oneClientState "0xb" "PRICE_UPDATE" (MsgData.appData 7) 3
     (by decide)⟩

/-! ### Claim C1: stale unregister -/

/-- Claim C1 concerns the run: register client 1 for `0xa`, register client
2 for `0xa` (evicting client 1), then process Unregister(client 1).  The
claim says this last step is a no-op leaving `0xa` bound to client 2.  The
code instead matches on the address alone: it deletes the registry entry of
the newer client 2 and closes the already-closed queue of client 1, which
panics the dispatcher.  Client 2 itself keeps an open queue and transport. -/
theorem stale_unregister_evicts_newer_and_panics :
    mlookup "0xa" (Start twoClientState
      [DispatcherCommand.register 1 10,
       DispatcherCommand.register 2 20]).clients = some 2 ∧
    staleUnregisterRun.panicked = true ∧
    mlookup "0xa" staleUnregisterRun.clients = none ∧
    liveAt staleUnregisterRun 2 = true ∧
    (mlookup 2 staleUnregisterRun.sessions).map SessionData.connClosed =
      some false := by decide

/-! ### Claim C5: read-deadline refresh -/

/-- Counterexample to claim C5 as stated: after a successful data frame at
time 50 the deadline is still the initial 60, not the full new window 110,
and a second frame at time 70 is a read error even though the claimed
refresh would have allowed it. -/
theorem frame_does_not_refresh_deadline :
    readPumpDeadlineAfter 0 [ReadEvent.frame 50] = some (initialReadDeadline 0) ∧
    readPumpDeadlineAfter 0 [ReadEvent.frame 50] ≠ some (50 + readDeadlineSeconds) ∧
    readPumpDeadlineAfter 0 [ReadEvent.frame 50, ReadEvent.frame 70] = none := by
  decide

/-- Claim C5 amended: only a liveness-probe acknowledgment (pong) refreshes
the read deadline to a full new 60-second window; a successfully received
data frame leaves the deadline unchanged; any event past the deadline is a
read error, which makes the pump exit into its teardown path. -/
theorem deadline_refresh_pong_only (d t u : Nat) (h1 : t ≤ d) (h2 : d < u) :
    readPumpStep d (ReadEvent.pong t) = some (t + readDeadlineSeconds) ∧
    readPumpStep d (ReadEvent.frame t) = some d ∧
    readPumpStep d (ReadEvent.frame u) = none ∧
    readPumpStep d (ReadEvent.pong u) = none := by
  have hu : ¬ u ≤ d := Nat.not_le.mpr h2
  simp [readPumpStep, h1, hu]

/-- Witness for the amended C5 at deadline 60 with a frame or pong at 50 and
an overrun at 70. -/
theorem deadline_refresh_pong_only_witness :
    ((50 : Nat) ≤ 60 ∧ (60 : Nat) < 70) ∧
    (readPumpStep 60 (ReadEvent.pong 50) = some (50 + readDeadlineSeconds) ∧
     readPumpStep 60 (ReadEvent.frame 50) = some 60 ∧
     readPumpStep 60 (ReadEvent.frame 70) = none ∧
     readPumpStep 60 (ReadEvent.pong 70) = none) :=
  ⟨by decide, deadline_refresh_pong_only 60 50 70 (by decide) (by decide)⟩

/-! ### Claim C6: serialized mutation and reader races -/

/-- Claim C6 is broken by the code: the broadcast eviction deletes from the
registry while holding only the read mode of the mutex, so it may overlap a
concurrent reader of the map (NotifyUser, GetStats, GetConnectedUsers) — a
mutation racing a reader.  The two write-mode mutators are race-free against
readers, as the claim expects. -/
theorem broadcast_delete_races_reader :
    racesWith broadcastAccess notifyUserAccess = true ∧
    racesWith broadcastAccess getStatsAccess = true ∧
    racesWith broadcastAccess getConnectedUsersAccess = true ∧
    racesWith registerAccess notifyUserAccess = false ∧
    racesWith unregisterAccess getStatsAccess = false := by decide

/-! ### Claim C9: GetStats consistency -/

/-- Claim C9: in every manager state (whose registry, being a map, has
distinct keys), GetStats reports a connected_clients count equal to the
length of connected_users, and connected_users lists exactly the registered
addresses, each exactly once: an arbitrary address occurs once in it when
registered and zero times otherwise. -/
theorem getstats_consistent (st : ManagerState) (a : String)
    (h : (st.clients.map Prod.fst).Nodup) :
    (GetStats st).connected_clients = (GetStats st).connected_users.length ∧
    (GetStats st).connected_users.count a =
      (if (mlookup a st.clients).isSome = true then 1 else 0) := by
  constructor
  · simp [GetStats, GetConnectedUsers]
  · by_cases hm : a ∈ st.clients.map Prod.fst
    · have hs : (mlookup a st.clients).isSome = true := by
        rw [Option.isSome_iff_ne_none]
        intro hnone
        exact ((mlookup_eq_none_iff a st.clients).mp hnone) hm
      simp [GetStats, GetConnectedUsers, hs, List.count_eq_one_of_mem h hm]
    · have hnone : mlookup a st.clients = none :=
        (mlookup_eq_none_iff a st.clients).mpr hm
      simp [GetStats, GetConnectedUsers, hnone, List.count_eq_zero.mpr hm]

/-- Witness for C9 on a three-client state and the address of its second
client. -/
theorem getstats_consistent_witness :
    (broadcastThreeState.clients.map Prod.fst).Nodup ∧
    ((GetStats broadcastThreeState).connected_clients =
        (GetStats broadcastThreeState).connected_users.length ∧
     (GetStats broadcastThreeState).connected_users.count "0xb" =
        (if (mlookup "0xb" broadcastThreeState.clients).isSome = true then 1 else 0)) :=
  ⟨by decide, getstats_consistent broadcastThreeState "0xb" (by decide)⟩

/-! ### Claim C3: eviction on reconnect -/

/-- Claim C3: registering client newId for address a while client oldId
holds a closes the queue and the transport of the old client and leaves the
registry binding a to exactly the new client (one entry).  The new client is
fresh, so its queue is open and below capacity. -/
theorem register_evicts_and_maps_new (st : ManagerState) (a : String)
    (oldId newId : Nat) (oldC newC : SessionData) (now : Nat)
    (hnp : st.panicked = false)
    (hreg : mlookup a st.clients = some oldId)
    (hold : mlookup oldId st.sessions = some oldC)
    (holdopen : oldC.queueClosed = false)
    (hnew : mlookup newId st.sessions = some newC)
    (haddr : newC.address = a)
    (hne : newId ≠ oldId)
    (hnewopen : newC.queueClosed = false)
    (hroom : newC.queue.length < newC.cap) :
    mlookup oldId (registerClient st newId now).sessions =
      some { oldC with queueClosed := true, connClosed := true } ∧
    mlookup a (registerClient st newId now).clients = some newId ∧
    ((registerClient st newId now).clients.map Prod.fst).count a = 1 ∧
    (registerClient st newId now).panicked = false := by
  have hne2 : oldId ≠ newId := fun e => hne e.symm
  have step : registerClient st newId now =
      { st with
          sessions := mupdate newId
            { newC with queue := newC.queue ++ [welcomeMessage a now] }
            (mupdate oldId { oldC with queueClosed := true, connClosed := true }
              st.sessions)
          clients := minsert a newId st.clients } := by
    have hlook2 : mlookup newId
        (mupdate oldId { oldC with queueClosed := true, connClosed := true }
          st.sessions) = some newC := by
      rw [mlookup_mupdate_ne _ _ hne, hnew]
    simp [registerClient, hnp, hnew, haddr, hreg, hold, holdopen, hlook2,
      hnewopen, hroom]
  rw [step]
  refine ⟨?_, ?_, ?_, hnp⟩
  · rw [mlookup_mupdate_ne _ _ hne2, mlookup_mupdate_self, hold]
    rfl
  · exact mlookup_minsert_self _ _ _
  · exact count_keys_minsert _ _ _

/-- Witness for C3: client 1 holds address `0xa`; registering the fresh
client 2 for `0xa` closes client 1 and binds `0xa` to client 2 alone. -/
theorem register_evicts_and_maps_new_witness :
    (reconnectState.panicked = false ∧
     mlookup "0xa" reconnectState.clients = some 1 ∧
     mlookup 1 reconnectState.sessions = some baseSession ∧
     baseSession.queueClosed = false ∧
     mlookup 2 reconnectState.sessions = some { baseSession with id := "c2" } ∧
     SessionData.address { baseSession with id := "c2" } = "0xa") ∧
    (mlookup 1 (registerClient reconnectState 2 20).sessions =
       some { baseSession with queueClosed := true, connClosed := true } ∧
     mlookup "0xa" (registerClient reconnectState 2 20).clients = some 2 ∧
     ((registerClient reconnectState 2 20).clients.map Prod.fst).count "0xa" = 1 ∧
     (registerClient reconnectState 2 20).panicked = false) :=
  ⟨by decide,
   register_evicts_and_maps_new reconnectState "0xa" 1 2 baseSession
     { baseSession with id := "c2" } 20 (by decide) (by decide) (by decide)
     (by decide) (by decide) (by decide) (by decide) (by decide) (by decide)⟩

/-! ### Claim C10: lowercase keying and case-sensitive unicast lookup -/

theorem char_toNat_ofNat (n : Nat) (h : n.isValidChar) :
    (Char.ofNat n).toNat = n := by
  simp [Char.ofNat, h, Char.ofNatAux, Char.toNat, UInt32.toNat, BitVec.toNat_ofNatLt]

theorem isUpperAscii_lowerChar (c : Char) : isUpperAscii (lowerChar c) = false := by
  unfold lowerChar
  by_cases h : 65 ≤ c.toNat ∧ c.toNat ≤ 90
  · have hv : Nat.isValidChar (c.toNat + 32) := Or.inl (by omega)
    have ht : (Char.ofNat (c.toNat + 32)).toNat = c.toNat + 32 :=
      char_toNat_ofNat _ hv
    have h2 : ¬ c.toNat + 32 ≤ 90 := by omega
    simp [h, isUpperAscii, ht, h2]
  · by_cases h1 : 65 ≤ c.toNat
    · have h2 : ¬ c.toNat ≤ 90 := fun h2 => h ⟨h1, h2⟩
      simp [h, isUpperAscii, h2]
    · simp [h, isUpperAscii, h1]

theorem hasUpperAscii_stringsToLower (s : String) :
    hasUpperAscii (stringsToLower s) = false := by
  unfold hasUpperAscii stringsToLower
  rw [show (String.mk (s.data.map lowerChar)).data = s.data.map lowerChar from rfl]
  rw [List.any_map]
  simp [Function.comp, isUpperAscii_lowerChar]

theorem mem_keys_minsert {α β : Type} [DecidableEq α] {k a : α} {v : β}
    {l : List (α × β)} (h : k ∈ (minsert a v l).map Prod.fst) :
    k = a ∨ k ∈ l.map Prod.fst := by
  unfold minsert at h
  rw [List.map_append] at h
  rcases List.mem_append.mp h with h | h
  · exact Or.inr (mem_keys_merase h)
  · simp at h
    exact Or.inl h

/-- The registry after `registerClient` is, depending on the branch taken,
the old registry, the old registry with the client address bound to the new
client, or that map with the client address deleted again (the defensive
branch when the welcome message cannot be enqueued). -/
theorem registerClient_clients_shape (st : ManagerState) (cid now : Nat) :
    (registerClient st cid now).clients = st.clients ∨
    ∃ c, mlookup cid st.sessions = some c ∧
      ((registerClient st cid now).clients = minsert c.address cid st.clients ∨
       (registerClient st cid now).clients =
         merase c.address (minsert c.address cid st.clients)) := by
  by_cases hp : st.panicked
  · simp [registerClient, hp]
  · cases hc : mlookup cid st.sessions with
    | none => simp [registerClient, hp, hc]
    | some c =>
      cases hold : mlookup c.address st.clients with
      | none =>
        by_cases hq : c.queueClosed
        · exact Or.inr ⟨c, rfl, Or.inl (by simp [registerClient, hp, hc, hold, hq])⟩
        · by_cases hroom : c.queue.length < c.cap
          · exact Or.inr ⟨c, rfl,
              Or.inl (by simp [registerClient, hp, hc, hold, hq, hroom])⟩
          · exact Or.inr ⟨c, rfl,
              Or.inr (by simp [registerClient, hp, hc, hold, hq, hroom])⟩
      | some oldId =>
        cases holdc : mlookup oldId st.sessions with
        | none =>
          by_cases hq : c.queueClosed
          · exact Or.inr ⟨c, rfl,
              Or.inl (by simp [registerClient, hp, hc, hold, holdc, hq])⟩
          · by_cases hroom : c.queue.length < c.cap
            · exact Or.inr ⟨c, rfl,
                Or.inl (by simp [registerClient, hp, hc, hold, holdc, hq, hroom])⟩
            · exact Or.inr ⟨c, rfl,
                Or.inr (by simp [registerClient, hp, hc, hold, holdc, hq, hroom])⟩
        | some oldC =>
          by_cases hq0 : oldC.queueClosed
          · exact Or.inl (by simp [registerClient, hp, hc, hold, holdc, hq0])
          · cases hw : mlookup cid
                (mupdate oldId { oldC with queueClosed := true, connClosed := true }
                  st.sessions) with
            | none =>
              exact Or.inr ⟨c, rfl,
                Or.inl (by simp [registerClient, hp, hc, hold, holdc, hq0, hw])⟩
            | some c2 =>
              by_cases hq : c2.queueClosed
              · exact Or.inr ⟨c, rfl,
                  Or.inl (by simp [registerClient, hp, hc, hold, holdc, hq0, hw, hq])⟩
              · by_cases hroom : c2.queue.length < c2.cap
                · exact Or.inr ⟨c, rfl, Or.inl
                    (by simp [registerClient, hp, hc, hold, holdc, hq0, hw, hq, hroom])⟩
                · exact Or.inr ⟨c, rfl, Or.inr
                    (by simp [registerClient, hp, hc, hold, holdc, hq0, hw, hq, hroom])⟩

/-- Any key of the registry after `registerClient` is an old key or the
address of the registered client. -/
theorem mem_keys_registerClient {st : ManagerState} {cid now : Nat} {k : String}
    (hk : k ∈ (registerClient st cid now).clients.map Prod.fst) :
    k ∈ st.clients.map Prod.fst ∨
      ∃ c, mlookup cid st.sessions = some c ∧ k = c.address := by
  rcases registerClient_clients_shape st cid now with h | ⟨c, hc, h | h⟩
  · rw [h] at hk
    exact Or.inl hk
  · rw [h] at hk
    rcases mem_keys_minsert hk with h2 | h2
    · exact Or.inr ⟨c, hc, h2⟩
    · exact Or.inl h2
  · rw [h] at hk
    rcases mem_keys_minsert (mem_keys_merase hk) with h2 | h2
    · exact Or.inr ⟨c, hc, h2⟩
    · exact Or.inl h2

/-- Claim C10: every session registered through the public connection
handler is keyed by the lowercased form of the supplied address, so in a
state whose registry was populated through the handler (all keys free of
uppercase ASCII letters — a property HandleConnection preserves, as the
first conjunct states for an arbitrary key of the resulting registry) a
NotifyUser call whose address contains an uppercase letter matches nothing
and is a no-op: the unicast lookup is an exact, case-sensitive match. -/
theorem handler_lowercase_keys_case_sensitive_unicast
    (st : ManagerState) (cid : Nat) (address a t k : String) (d : MsgData)
    (now : Nat)
    (hkeys : ∀ x ∈ st.clients.map Prod.fst, hasUpperAscii x = false)
    (hk : k ∈ (HandleConnection st cid address now).clients.map Prod.fst)
    (ha : hasUpperAscii a = true) :
    hasUpperAscii k = false ∧ NotifyUser st a t d now = st := by
  constructor
  · by_cases hvalid : isValidEthereumAddress address
    · rw [show HandleConnection st cid address now =
          UpgradeConnection st cid (stringsToLower address) now by
            simp [HandleConnection, hvalid]] at hk
      unfold UpgradeConnection at hk
      rcases mem_keys_registerClient hk with h | ⟨c, hc, hkc⟩
      · exact hkeys k h
      · rw [show (mlookup cid
            (minsert cid
              { id := generateClientID now, address := stringsToLower address,
                queue := [], cap := 256, queueClosed := false,
                connClosed := false } st.sessions)) = some
              { id := generateClientID now, address := stringsToLower address,
                queue := [], cap := 256, queueClosed := false,
                connClosed := false } from mlookup_minsert_self _ _ _] at hc
        cases hc
        rw [hkc]
        exact hasUpperAscii_stringsToLower address
    · rw [show HandleConnection st cid address now = st by
          simp [HandleConnection, hvalid]] at hk
      exact hkeys k hk
  · have hnone : mlookup a st.clients = none := by
      rw [mlookup_eq_none_iff]
      intro hmem
      have hfalse := hkeys a hmem
      rw [ha] at hfalse
      exact Bool.noConfusion hfalse
    simp [NotifyUser, hnone]

/-- Witness for C10: starting from the empty registry, connecting with a
valid mixed-case address registers its lowercased form, and a NotifyUser
call using a mixed-case address is a no-op. -/
theorem handler_lowercase_keys_witness :
    ((∀ x ∈ (ManagerState.mk [] [] false).clients.map Prod.fst,
        hasUpperAscii x = false) ∧
     stringsToLower mixedCaseAddress ∈
       (HandleConnection (ManagerState.mk [] [] false) 5 mixedCaseAddress
          7).clients.map Prod.fst ∧
     hasUpperAscii mixedCaseAddress = true) ∧
    (hasUpperAscii (stringsToLower mixedCaseAddress) = false ∧
     NotifyUser (ManagerState.mk [] [] false) mixedCaseAddress "PRICE_UPDATE"
       (MsgData.appData 7) 3 = ManagerState.mk [] [] false) :=
  ⟨⟨by decide, by decide, by decide⟩,
   handler_lowercase_keys_case_sensitive_unicast (ManagerState.mk [] [] false) 5
     mixedCaseAddress mixedCaseAddress "PRICE_UPDATE"
     (stringsToLower mixedCaseAddress) (MsgData.appData 7) 3 (by decide)
     (by decide) (by decide)⟩

/-! ### The broadcast loop, entry by entry -/

theorem liveAt_congr {s1 s2 : ManagerState} {i : Nat}
    (h : mlookup i s1.sessions = mlookup i s2.sessions) :
    liveAt s1 i = liveAt s2 i := by
  unfold liveAt
  rw [h]

theorem bcEvicts_congr {s1 s2 : ManagerState} {p : String × Nat}
    (h : mlookup p.2 s1.sessions = mlookup p.2 s2.sessions) :
    bcEvicts s1 p = bcEvicts s2 p := by
  unfold bcEvicts
  rw [h]

theorem bcEvicts_of_full {st : ManagerState} {i : Nat} {c : SessionData}
    (a : String) (hc : mlookup i st.sessions = some c)
    (hfull : c.cap ≤ c.queue.length) :
    bcEvicts st (a, i) = true := by
  simp [bcEvicts, hc, hfull]

theorem bcEvicts_false_of_room {st : ManagerState} {p : String × Nat}
    (h : queueHasRoom st p.2 = true) : bcEvicts st p = false := by
  unfold queueHasRoom at h
  unfold bcEvicts
  cases hc : mlookup p.2 st.sessions with
  | none => rfl
  | some c =>
    rw [hc] at h
    simp at h ⊢
    omega

/-- Net effect of one pass of the broadcast loop over the entry list `l`:
no panic, untouched heap cells for clients outside `l`, the registry equal
to the fold that erases exactly the saturated entries, and per visited
entry either one message appended (room) or the queue closed (saturated) —
judged against the heap at loop entry, which is sound because the entry
keys are distinct. -/
theorem bc_fold (msg : Message) (l : List (String × Nat)) :
    ∀ s : ManagerState,
      s.panicked = false →
      (l.map Prod.snd).Nodup →
      (∀ p ∈ l, liveAt s p.2 = true) →
      (l.foldl (bcStep msg) s).panicked = false ∧
      (∀ i, i ∉ l.map Prod.snd →
          mlookup i (l.foldl (bcStep msg) s).sessions = mlookup i s.sessions) ∧
      (l.foldl (bcStep msg) s).clients =
        l.foldl (fun cs p => if bcEvicts s p then merase p.1 cs else cs)
          s.clients ∧
      (∀ p ∈ l, ∀ c0, mlookup p.2 s.sessions = some c0 →
          mlookup p.2 (l.foldl (bcStep msg) s).sessions =
            some (if c0.queue.length < c0.cap then
                    { c0 with queue := c0.queue ++ [msg] }
                  else { c0 with queueClosed := true })) := by
  induction l with
  | nil =>
    intro s hp _ _
    refine ⟨hp, fun i _ => rfl, rfl, ?_⟩
    intro p hpmem
    simp at hpmem
  | cons e rest ih =>
    intro s hp hnd hlive
    have hle := hlive e (List.mem_cons_self e rest)
    obtain ⟨c, hc, hopen⟩ :
        ∃ c, mlookup e.2 s.sessions = some c ∧ c.queueClosed = false := by
      unfold liveAt at hle
      cases hce : mlookup e.2 s.sessions with
      | none => rw [hce] at hle; simp at hle
      | some c0 =>
        rw [hce] at hle
        simp at hle
        exact ⟨c0, rfl, by simp [hle]⟩
    obtain ⟨he2, hnd2⟩ :
        e.2 ∉ rest.map Prod.snd ∧ (rest.map Prod.snd).Nodup := by
      rw [List.map_cons, List.nodup_cons] at hnd
      exact hnd
    set s1 := bcStep msg s e with hs1def
    have hs1all : s1.sessions = mupdate e.2
          (if c.queue.length < c.cap then { c with queue := c.queue ++ [msg] }
           else { c with queueClosed := true }) s.sessions ∧
        s1.clients =
          (if bcEvicts s e then merase e.1 s.clients else s.clients) ∧
        s1.panicked = false := by
      by_cases hroom : c.queue.length < c.cap
      · have hev : bcEvicts s e = false := by
          simp [bcEvicts, hc]
          omega
        rw [hs1def]
        simp [bcStep, hp, hc, hopen, hroom, hev]
      · have hev : bcEvicts s e = true := by
          simp [bcEvicts, hc]
          omega
        rw [hs1def]
        simp [bcStep, hp, hc, hopen, hroom, hev]
    obtain ⟨hs1sess, hs1cl, hs1p⟩ := hs1all
    have hsess_ne : ∀ p ∈ rest, mlookup p.2 s1.sessions = mlookup p.2 s.sessions := by
      intro p hpm
      have hne : p.2 ≠ e.2 := by
        intro hcontra
        exact he2 (hcontra ▸ List.mem_map_of_mem Prod.snd hpm)
      rw [hs1sess, mlookup_mupdate_ne _ _ hne]
    have hlive2 : ∀ p ∈ rest, liveAt s1 p.2 = true := by
      intro p hpm
      rw [liveAt_congr (hsess_ne p hpm)]
      exact hlive p (List.mem_cons_of_mem e hpm)
    obtain ⟨ih1, ih2, ih3, ih4⟩ := ih s1 hs1p hnd2 hlive2
    rw [List.foldl_cons, ← hs1def]
    refine ⟨ih1, ?_, ?_, ?_⟩
    · intro i hi
      rw [List.map_cons] at hi
      have hie : i ≠ e.2 := fun h => hi (h ▸ List.mem_cons_self _ _)
      have hirest : i ∉ rest.map Prod.snd := fun h => hi (List.mem_cons_of_mem _ h)
      rw [ih2 i hirest, hs1sess, mlookup_mupdate_ne _ _ hie]
    · rw [ih3, List.foldl_cons, ← hs1cl]
      apply List.foldl_ext
      intro cs p hpm
      rw [bcEvicts_congr (hsess_ne p hpm)]
    · intro p hpm c0 hc0
      rcases List.mem_cons.mp hpm with heq | hrest
      · subst heq
        have hcc : c0 = c := by
          rw [hc] at hc0
          exact (Option.some.injEq _ _ ▸ hc0).symm
        subst hcc
        rw [ih2 p.2 he2, hs1sess, mlookup_mupdate_self, hc]
        rfl
      · exact ih4 p hrest c0 (by rw [hsess_ne p hrest]; exact hc0)

/-- A fold of conditional erasures over entries none of which evict leaves
the registry unchanged. -/
theorem foldl_spec_all_false (s : ManagerState) :
    ∀ (l init : List (String × Nat)),
      (∀ p ∈ l, bcEvicts s p = false) →
      l.foldl (fun cs p => if bcEvicts s p then merase p.1 cs else cs) init =
        init := by
  intro l
  induction l with
  | nil => intro init _; rfl
  | cons q rest ih =>
    intro init hall
    rw [List.foldl_cons]
    have hq : bcEvicts s q = false := hall q (List.mem_cons_self _ _)
    simp only [hq, Bool.false_eq_true, if_false]
    exact ih init fun p hp => hall p (List.mem_cons_of_mem _ hp)

/-- A fold of conditional erasures where exactly one entry evicts erases
exactly its address. -/
theorem foldl_spec_single (s : ManagerState) :
    ∀ (l : List (String × Nat)) (init : List (String × Nat)) (e : String × Nat),
      l.Nodup → e ∈ l → bcEvicts s e = true →
      (∀ p ∈ l, p ≠ e → bcEvicts s p = false) →
      l.foldl (fun cs p => if bcEvicts s p then merase p.1 cs else cs) init =
        merase e.1 init := by
  intro l
  induction l with
  | nil =>
    intro init e _ he
    simp at he
  | cons q rest ih =>
    intro init e hnd hmem hsat hothers
    rw [List.foldl_cons]
    rcases List.mem_cons.mp hmem with heq | hrest
    · subst heq
      simp only [hsat, if_true]
      apply foldl_spec_all_false
      intro p hp
      have hpe : p ≠ e := by
        intro hcontra
        subst hcontra
        exact (List.nodup_cons.mp hnd).1 hp
      exact hothers p (List.mem_cons_of_mem _ hp) hpe
    · have hqe : q ≠ e := by
        intro hcontra
        subst hcontra
        exact (List.nodup_cons.mp hnd).1 hrest
      have hq : bcEvicts s q = false := hothers q (List.mem_cons_self _ _) hqe
      simp only [hq, Bool.false_eq_true, if_false]
      exact ih init e (List.nodup_cons.mp hnd).2 hrest hsat
        fun p hp hpe => hothers p (List.mem_cons_of_mem _ hp) hpe

/-- A fold of conditional erasures never reintroduces an absent key. -/
theorem foldl_spec_preserve_none (s : ManagerState) (x : String) :
    ∀ (l init : List (String × Nat)), mlookup x init = none →
      mlookup x
        (l.foldl (fun cs p => if bcEvicts s p then merase p.1 cs else cs)
          init) = none := by
  intro l
  induction l with
  | nil => intro init h; exact h
  | cons q rest ih =>
    intro init h
    rw [List.foldl_cons]
    apply ih
    by_cases hev : bcEvicts s q
    · rw [if_pos hev]
      by_cases hx : x = q.1
      · subst hx
        exact mlookup_merase_self _ _
      · rw [mlookup_merase_ne _ hx]
        exact h
    · rw [if_neg hev]
      exact h

/-- After the fold, the address of any evicting member entry is gone. -/
theorem foldl_spec_lookup_none (s : ManagerState) :
    ∀ (l init : List (String × Nat)) (e : String × Nat),
      e ∈ l → bcEvicts s e = true →
      mlookup e.1
        (l.foldl (fun cs p => if bcEvicts s p then merase p.1 cs else cs)
          init) = none := by
  intro l
  induction l with
  | nil =>
    intro init e he
    simp at he
  | cons q rest ih =>
    intro init e hmem hsat
    rw [List.foldl_cons]
    rcases List.mem_cons.mp hmem with heq | hrest
    · subst heq
      rw [if_pos hsat]
      exact foldl_spec_preserve_none s e.1 rest _ (mlookup_merase_self _ _)
    · exact ih _ e hrest hsat

/-! ### Claim C2: delivery isolation under one slow consumer -/

/-- Claim C2: broadcasting to live sessions of which exactly one — the entry
(satAddr, satId) — has a saturated queue evicts that one session (its
registry entry is erased, its queue closed) and delivers exactly one copy of
the message to every other session, appended at the tail of its queue so
FIFO order relative to earlier messages is preserved; no other delivery
fails and the dispatcher does not panic.  The other sessions are covered by
the universally quantified entry (b, j). -/
theorem broadcast_isolation_slow_consumer
    (st : ManagerState) (msg : Message) (satAddr b : String) (satId j : Nat)
    (satC cb : SessionData)
    (hnp : st.panicked = false)
    (hids : (st.clients.map Prod.snd).Nodup)
    (hlive : ∀ p ∈ st.clients, liveAt st p.2 = true)
    (hmem : (satAddr, satId) ∈ st.clients)
    (hsatc : mlookup satId st.sessions = some satC)
    (hfull : satC.cap ≤ satC.queue.length)
    (hothers : ∀ p ∈ st.clients, p ≠ (satAddr, satId) →
        queueHasRoom st p.2 = true)
    (hbj : (b, j) ∈ st.clients) (hne : (b, j) ≠ (satAddr, satId))
    (hcb : mlookup j st.sessions = some cb) :
    (broadcastMessage st msg).panicked = false ∧
    (broadcastMessage st msg).clients = merase satAddr st.clients ∧
    mlookup satId (broadcastMessage st msg).sessions =
      some { satC with queueClosed := true } ∧
    mlookup j (broadcastMessage st msg).sessions =
      some { cb with queue := cb.queue ++ [msg] } := by
  have hbm : broadcastMessage st msg = st.clients.foldl (bcStep msg) st := by
    simp [broadcastMessage, hnp]
  obtain ⟨h1, h2, h3, h4⟩ := bc_fold msg st.clients st hnp hids hlive
  have hsatev : bcEvicts st (satAddr, satId) = true :=
    bcEvicts_of_full satAddr hsatc hfull
  have hnotroom : ¬ satC.queue.length < satC.cap := Nat.not_lt.mpr hfull
  refine ⟨by rw [hbm]; exact h1, ?_, ?_, ?_⟩
  · rw [hbm, h3]
    exact foldl_spec_single st st.clients st.clients (satAddr, satId)
      (List.Nodup.of_map _ hids) hmem hsatev
      fun p hp hpe => bcEvicts_false_of_room (hothers p hp hpe)
  · rw [hbm]
    have h := h4 (satAddr, satId) hmem satC hsatc
    rw [if_neg hnotroom] at h
    exact h
  · have hr := hothers (b, j) hbj hne
    have hroom : cb.queue.length < cb.cap := by
      unfold queueHasRoom at hr
      simp [hcb] at hr
      exact hr
    rw [hbm]
    have h := h4 (b, j) hbj cb hcb
    rw [if_pos hroom] at h
    exact h

/-- Witness for C2 on the three-client state: the saturated client of `0xc`
is evicted while the client of `0xb` receives one appended copy. -/
theorem broadcast_isolation_slow_consumer_witness :
    (broadcastThreeState.panicked = false ∧
     (broadcastThreeState.clients.map Prod.snd).Nodup ∧
     (∀ p ∈ broadcastThreeState.clients, liveAt broadcastThreeState p.2 = true) ∧
     ("0xc", 3) ∈ broadcastThreeState.clients ∧
     mlookup 3 broadcastThreeState.sessions = some satSessionC ∧
     satSessionC.cap ≤ satSessionC.queue.length ∧
     (∀ p ∈ broadcastThreeState.clients, p ≠ ("0xc", 3) →
        queueHasRoom broadcastThreeState p.2 = true) ∧
     ("0xb", 2) ∈ broadcastThreeState.clients ∧
     mlookup 2 broadcastThreeState.sessions = some roomSessionB) ∧
    ((broadcastMessage broadcastThreeState (sampleMessage 2)).panicked = false ∧
     (broadcastMessage broadcastThreeState (sampleMessage 2)).clients =
       merase "0xc" broadcastThreeState.clients ∧
     mlookup 3 (broadcastMessage broadcastThreeState (sampleMessage 2)).sessions =
       some { satSessionC with queueClosed := true } ∧
     mlookup 2 (broadcastMessage broadcastThreeState (sampleMessage 2)).sessions =
       some { roomSessionB with queue := roomSessionB.queue ++ [sampleMessage 2] }) :=
  ⟨⟨by decide, by decide, by decide, by decide, by decide, by decide, by decide,
    by decide, by decide⟩,
   broadcast_isolation_slow_consumer broadcastThreeState (sampleMessage 2)
     "0xc" "0xb" 3 2 satSessionC roomSessionB (by decide) (by decide)
     (by decide) (by decide) (by decide) (by decide) (by decide) (by decide)
     (by decide) (by decide)⟩

/-! ### Claim C4: eviction on saturation versus Unregister -/

/-- Counterexample to claim C4 as stated: evicting the single saturated
client through a broadcast removes it from the registry and closes its
queue, but leaves its transport open, whereas Unregister closes the
transport — so the broadcast eviction does not have exactly the effect of
Unregister. -/
theorem broadcast_eviction_differs_from_unregister :
    mlookup "0xa"
      (broadcastMessage saturatedOneState (sampleMessage 1)).clients = none ∧
    (mlookup 1 (broadcastMessage saturatedOneState (sampleMessage 1)).sessions).map
        SessionData.queueClosed = some true ∧
    (mlookup 1 (broadcastMessage saturatedOneState (sampleMessage 1)).sessions).map
        SessionData.connClosed = some false ∧
    (mlookup 1 (unregisterClient saturatedOneState 1).sessions).map
        SessionData.connClosed = some true := by decide

/-- Claim C4 amended: a saturated unicast delivery (NotifyUser) routes the
session through exactly the Unregister path, with identical effect; a
saturated broadcast delivery removes the session from the Registry and
closes its outbound queue but does not itself close the transport. -/
theorem saturated_eviction_paths
    (st : ManagerState) (a t : String) (d : MsgData) (now : Nat) (cid : Nat)
    (c : SessionData) (msg : Message)
    (hnp : st.panicked = false)
    (hids : (st.clients.map Prod.snd).Nodup)
    (hlive : ∀ p ∈ st.clients, liveAt st p.2 = true)
    (ha : mlookup a st.clients = some cid)
    (hc : mlookup cid st.sessions = some c)
    (hfull : c.cap ≤ c.queue.length) :
    NotifyUser st a t d now = unregisterClient st cid ∧
    mlookup cid (broadcastMessage st msg).sessions =
      some { c with queueClosed := true } ∧
    mlookup a (broadcastMessage st msg).clients = none ∧
    (broadcastMessage st msg).panicked = false := by
  have hmem : (a, cid) ∈ st.clients := mlookup_some_mem ha
  have hopen : c.queueClosed = false := by
    have hl := hlive (a, cid) hmem
    unfold liveAt at hl
    simp [hc] at hl
    exact hl
  have hnotroom : ¬ c.queue.length < c.cap := Nat.not_lt.mpr hfull
  have hbm : broadcastMessage st msg = st.clients.foldl (bcStep msg) st := by
    simp [broadcastMessage, hnp]
  obtain ⟨h1, h2, h3, h4⟩ := bc_fold msg st.clients st hnp hids hlive
  have hev : bcEvicts st (a, cid) = true := bcEvicts_of_full a hc hfull
  refine ⟨?_, ?_, ?_, ?_⟩
  · simp [NotifyUser, hnp, ha, hc, hopen, hnotroom]
  · rw [hbm]
    have h := h4 (a, cid) hmem c hc
    rw [if_neg hnotroom] at h
    exact h
  · rw [hbm, h3]
    exact foldl_spec_lookup_none st st.clients st.clients (a, cid) hmem hev
  · rw [hbm]
    exact h1

/-- Witness for the amended C4 on the single saturated client. -/
theorem saturated_eviction_paths_witness :
    (saturatedOneState.panicked = false ∧
     (saturatedOneState.clients.map Prod.snd).Nodup ∧
     (∀ p ∈ saturatedOneState.clients, liveAt saturatedOneState p.2 = true) ∧
     mlookup "0xa" saturatedOneState.clients = some 1 ∧
     mlookup 1 saturatedOneState.sessions = some satSessionOne ∧
     satSessionOne.cap ≤ satSessionOne.queue.length) ∧
    (NotifyUser saturatedOneState "0xa" "PRICE_UPDATE" (MsgData.appData 5) 9 =
       unregisterClient saturatedOneState 1 ∧
     mlookup 1 (broadcastMessage saturatedOneState (sampleMessage 1)).sessions =
       some { satSessionOne with queueClosed := true } ∧
     mlookup "0xa"
       (broadcastMessage saturatedOneState (sampleMessage 1)).clients = none ∧
     (broadcastMessage saturatedOneState (sampleMessage 1)).panicked = false) :=
  ⟨⟨by decide, by decide, by decide, by decide, by decide, by decide⟩,
   saturated_eviction_paths saturatedOneState "0xa" "PRICE_UPDATE"
     (MsgData.appData 5) 9 1 satSessionOne (sampleMessage 1) (by decide)
     (by decide) (by decide) (by decide) (by decide) (by decide)⟩

end NadmonWS
